import Mathlib

/-!
Shallow embedding of the two ink! demo contracts of this repository:
`examples/demo-contracts/erc20.rs` and `examples/demo-contracts/flipper.rs`.

The `ink_storage` `HashMap` is modelled as an association list whose
`insert` replaces the value at an existing key (first occurrence) or
appends the binding; `get(..).copied().unwrap_or(0)` is modelled by
`alookup` followed by `Option.getD 0`.  `AccountId` is modelled as `Nat`
(opaque, equality-comparable).  `Balance` is `u128` in ink!; it is
modelled as `Nat`, with the one unchecked addition of the source
(`to_balance + value` in `transfer_from_to`) reduced modulo `2 ^ 128`,
the wrap-around semantics of the machine integer.  The subtraction sites
are guarded (`from_balance - value` after `from_balance < value` fails,
`allowance - value` after `allowance < value` fails), so `Nat`
subtraction agrees with `u128` subtraction there.  The ambient
`self.env().caller()` is passed as an explicit first argument, and each
message returns its result, the successor state, and the list of events
it emits.
-/

/-- One more than the largest representable `u128` value. -/
def U128 : Nat := 2 ^ 128

/-- Association-list lookup: the value at the first occurrence of the key,
mirroring `HashMap::get`. -/
def alookup {α : Type} [DecidableEq α] (k : α) : List (α × Nat) → Option Nat
  | [] => none
  | (k1, v) :: rest => if k1 = k then some v else alookup k rest

/-- Association-list insert: replace the value at the first occurrence of
the key, or append the binding, mirroring `HashMap::insert`. -/
def ainsert {α : Type} [DecidableEq α] (k : α) (v : Nat) :
    List (α × Nat) → List (α × Nat)
  | [] => [(k, v)]
  | (k1, v1) :: rest =>
      if k1 = k then (k, v) :: rest else (k1, v1) :: ainsert k v rest

/-- Sum of the stored values, mirroring `sum(balances.values())`. -/
def sumValues {α : Type} : List (α × Nat) → Nat
  | [] => 0
  | p :: rest => p.2 + sumValues rest

/-- The ERC-20 error types (`enum Error` in `erc20.rs`). -/
inductive Error where
  | InsufficientBalance
  | InsufficientAllowance
deriving DecidableEq, Repr

/-- The events emitted by the contract (`Transfer` and `Approval` in
`erc20.rs`); `Transfer.from`/`Transfer.to` are `Option<AccountId>`. -/
inductive Event where
  | Transfer (src : Option Nat) (dst : Option Nat) (value : Nat)
  | Approval (owner : Nat) (spender : Nat) (value : Nat)
deriving DecidableEq, Repr

/-- The ERC-20 storage items (`struct Erc20` in `erc20.rs`). -/
structure Erc20 where
  total_supply : Nat
  balances : List (Nat × Nat)
  allowances : List ((Nat × Nat) × Nat)
  name : String
  symbol : String
  decimals : Nat
deriving DecidableEq, Repr

/-- `Erc20::new`: credits the whole initial supply to the constructing
caller and emits the minting `Transfer` event. -/
def Erc20.new (caller : Nat) (initial_supply : Nat) (name symbol : String)
    (decimals : Nat) : Erc20 × List Event :=
  ({ total_supply := initial_supply
     balances := [(caller, initial_supply)]
     allowances := []
     name := name
     symbol := symbol
     decimals := decimals },
   [Event.Transfer none (some caller) initial_supply])

/-- `Erc20::balance_of`: stored balance or `0`. -/
def Erc20.balance_of (s : Erc20) (owner : Nat) : Nat :=
  (alookup owner s.balances).getD 0

/-- `Erc20::allowance`: stored allowance or `0`. -/
def Erc20.allowance (s : Erc20) (owner spender : Nat) : Nat :=
  (alookup (owner, spender) s.allowances).getD 0

/-- `Erc20::transfer_from_to`: the shared balance-moving core.  The debit
`from_balance - value` is guarded; the credit `to_balance + value` is the
source's unchecked `u128` addition, hence the `% U128`. -/
def Erc20.transfer_from_to (s : Erc20) (src dst : Nat) (value : Nat) :
    Except Error Unit × Erc20 × List Event :=
  let from_balance := s.balance_of src
  if from_balance < value then
    (Except.error Error.InsufficientBalance, s, [])
  else
    let s1 : Erc20 := { s with balances := ainsert src (from_balance - value) s.balances }
    let to_balance := s1.balance_of dst
    let s2 : Erc20 := { s1 with balances := ainsert dst ((to_balance + value) % U128) s1.balances }
    (Except.ok (), s2, [Event.Transfer (some src) (some dst) value])

/-- `Erc20::transfer`: the caller transfers to `dst`. -/
def Erc20.transfer (s : Erc20) (caller dst : Nat) (value : Nat) :
    Except Error Unit × Erc20 × List Event :=
  s.transfer_from_to caller dst value

/-- `Erc20::approve`: unconditionally overwrite the allowance and emit
the `Approval` event. -/
def Erc20.approve (s : Erc20) (caller spender : Nat) (value : Nat) :
    Except Error Unit × Erc20 × List Event :=
  (Except.ok (),
   { s with allowances := ainsert (caller, spender) value s.allowances },
   [Event.Approval caller spender value])

/-- `Erc20::transfer_from`: check the allowance, delegate to
`transfer_from_to`, then decrement the allowance on success. -/
def Erc20.transfer_from (s : Erc20) (caller src dst : Nat) (value : Nat) :
    Except Error Unit × Erc20 × List Event :=
  let allowance := s.allowance src caller
  if allowance < value then
    (Except.error Error.InsufficientAllowance, s, [])
  else
    match s.transfer_from_to src dst value with
    | (Except.error e, s1, evs) => (Except.error e, s1, evs)
    | (Except.ok _, s1, evs) =>
        (Except.ok (),
         { s1 with allowances := ainsert (src, caller) (allowance - value) s1.allowances },
         evs)

/-- States reachable from some `new` (with a representable `u128` initial
supply) by any finite sequence of the three mutating messages. -/
inductive Reachable : Erc20 → Prop where
  | init (caller initial_supply : Nat) (name symbol : String) (decimals : Nat)
      (h : initial_supply < U128) :
      Reachable (Erc20.new caller initial_supply name symbol decimals).1
  | step_transfer (s : Erc20) (caller dst value : Nat) (h : Reachable s) :
      Reachable (s.transfer caller dst value).2.1
  | step_approve (s : Erc20) (caller spender value : Nat) (h : Reachable s) :
      Reachable (s.approve caller spender value).2.1
  | step_transfer_from (s : Erc20) (caller src dst value : Nat) (h : Reachable s) :
      Reachable (s.transfer_from caller src dst value).2.1

/-- The ledger invariant carried through reachability: the stored balances
sum to the total supply, and the total supply is a representable `u128`. -/
def Erc20.Consistent (s : Erc20) : Prop :=
  sumValues s.balances = s.total_supply ∧ s.total_supply < U128

instance (s : Erc20) : Decidable s.Consistent := by
  unfold Erc20.Consistent; infer_instance

/-- The Flipper storage (`struct Flipper` in `flipper.rs`). -/
structure Flipper where
  value : Bool
deriving DecidableEq, Repr

/-- `Flipper::new`. -/
def Flipper.new (init_value : Bool) : Flipper :=
  { value := init_value }

/-- `Flipper::default`, delegating to `new(false)`. -/
def Flipper.default : Flipper :=
  Flipper.new false

/-- `Flipper::flip`. -/
def Flipper.flip (f : Flipper) : Flipper :=
  { f with value := !f.value }

/-- `Flipper::get`. -/
def Flipper.get (f : Flipper) : Bool :=
  f.value

/-- The state of the `new_works` test: `new(100, "Token Name", "TN", 18)`
deployed by account `0`. -/
def sampleLedger : Erc20 :=
  (Erc20.new 0 100 "Token Name" "TN" 18).1

/-- `sampleLedger` after `approve(2, 20)` by the deployer, mirroring the
`transfer_from_works` test. -/
def approvedLedger : Erc20 :=
  (sampleLedger.approve 0 2 20).2.1

/-- A ledger state whose stored balances are each representable `u128`
values but whose recipient balance sits at the `u128` maximum, so that a
one-token credit overflows.  It is not reachable from any `new`. -/
def wrapState : Erc20 :=
  { total_supply := 0
    balances := [(0, 1), (1, U128 - 1)]
    allowances := []
    name := ""
    symbol := ""
    decimals := 0 }

/-! ### Association-list lemmas -/

theorem alookup_ainsert_self {α : Type} [DecidableEq α] (k : α) (v : Nat)
    (l : List (α × Nat)) : alookup k (ainsert k v l) = some v := by
  induction l with
  | nil => simp [ainsert, alookup]
  | cons p rest ih =>
      obtain ⟨k1, v1⟩ := p
      by_cases h : k1 = k
      · simp [ainsert, alookup, h]
      · simp [ainsert, alookup, h, ih]

theorem alookup_ainsert_ne {α : Type} [DecidableEq α] (k k2 : α) (v : Nat)
    (l : List (α × Nat)) (hne : k2 ≠ k) :
    alookup k2 (ainsert k v l) = alookup k2 l := by
  have hne2 : ¬(k = k2) := fun h => hne h.symm
  induction l with
  | nil => simp [ainsert, alookup, hne2]
  | cons p rest ih =>
      obtain ⟨k1, v1⟩ := p
      by_cases h : k1 = k
      · subst h
        simp [ainsert, alookup, hne2]
      · simp [ainsert, alookup, h, ih]

theorem sumValues_ainsert {α : Type} [DecidableEq α] (k : α) (v : Nat)
    (l : List (α × Nat)) :
    sumValues (ainsert k v l) + (alookup k l).getD 0 = sumValues l + v := by
  induction l with
  | nil => simp [ainsert, alookup, sumValues]
  | cons p rest ih =>
      obtain ⟨k1, v1⟩ := p
      by_cases h : k1 = k
      · simp [ainsert, alookup, h, sumValues]
        omega
      · simp [ainsert, alookup, h, sumValues]
        omega

theorem alookup_le_sumValues {α : Type} [DecidableEq α] (k : α)
    (l : List (α × Nat)) : (alookup k l).getD 0 ≤ sumValues l := by
  induction l with
  | nil => simp [alookup, sumValues]
  | cons p rest ih =>
      obtain ⟨k1, v1⟩ := p
      by_cases h : k1 = k
      · simp [alookup, h, sumValues]
      · simp [alookup, h, sumValues]
        omega

theorem ainsert_idem {α : Type} [DecidableEq α] (k : α) (v : Nat)
    (l : List (α × Nat)) : ainsert k v (ainsert k v l) = ainsert k v l := by
  induction l with
  | nil => simp [ainsert]
  | cons p rest ih =>
      obtain ⟨k1, v1⟩ := p
      by_cases h : k1 = k
      · simp [ainsert, h]
      · simp [ainsert, h, ih]

/-! ### Characterisation of the operations -/

theorem balance_of_ainsert (s : Erc20) (k v a : Nat) :
    Erc20.balance_of { s with balances := ainsert k v s.balances } a
      = if a = k then v else s.balance_of a := by
  by_cases h : a = k
  · subst h
    simp [Erc20.balance_of, alookup_ainsert_self]
  · simp [Erc20.balance_of, h, alookup_ainsert_ne _ _ _ _ h]

theorem transfer_from_to_insufficient (s : Erc20) (src dst value : Nat)
    (h : s.balance_of src < value) :
    s.transfer_from_to src dst value
      = (Except.error Error.InsufficientBalance, s, []) := by
  unfold Erc20.transfer_from_to
  simp [h]

theorem transfer_from_to_ok (s : Erc20) (src dst value : Nat)
    (h : value ≤ s.balance_of src) :
    s.transfer_from_to src dst value =
      (Except.ok (),
       { s with balances := (ainsert dst
           (((if dst = src then s.balance_of src - value else s.balance_of dst) + value) % U128)
           (ainsert src (s.balance_of src - value) s.balances)) },
       [Event.Transfer (some src) (some dst) value]) := by
  have h2 : ¬ (s.balance_of src < value) := not_lt.mpr h
  unfold Erc20.transfer_from_to
  simp [h2, balance_of_ainsert]

theorem transfer_from_to_consistent (s : Erc20) (src dst value : Nat)
    (h : s.Consistent) : Erc20.Consistent (s.transfer_from_to src dst value).2.1 := by
  obtain ⟨hsum, hts⟩ := h
  by_cases hlt : s.balance_of src < value
  · rw [transfer_from_to_insufficient s src dst value hlt]
    exact ⟨hsum, hts⟩
  · push_neg at hlt
    rw [transfer_from_to_ok s src dst value hlt]
    have hfb_le : s.balance_of src ≤ sumValues s.balances :=
      alookup_le_sumValues src s.balances
    have sum1 := sumValues_ainsert src (s.balance_of src - value) s.balances
    rw [show (alookup src s.balances).getD 0 = s.balance_of src from rfl] at sum1
    have htb : (if dst = src then s.balance_of src - value else s.balance_of dst)
        = (alookup dst (ainsert src (s.balance_of src - value) s.balances)).getD 0 := by
      by_cases hds : dst = src
      · subst hds
        simp [alookup_ainsert_self]
      · simp [hds, alookup_ainsert_ne _ _ _ _ hds, Erc20.balance_of]
  -- the post-debit recipient balance is bounded by the post-debit sum
    have htb_le : (if dst = src then s.balance_of src - value else s.balance_of dst)
        ≤ sumValues (ainsert src (s.balance_of src - value) s.balances) := by
      rw [htb]
      exact alookup_le_sumValues _ _
    have hnowrap : (if dst = src then s.balance_of src - value else s.balance_of dst)
        + value < U128 := by omega
    have sum2 := sumValues_ainsert dst
      (((if dst = src then s.balance_of src - value else s.balance_of dst) + value) % U128)
      (ainsert src (s.balance_of src - value) s.balances)
    rw [← htb, Nat.mod_eq_of_lt hnowrap] at sum2
    unfold Erc20.Consistent
    dsimp only
    rw [Nat.mod_eq_of_lt hnowrap]
    constructor
    · omega
    · exact hts

theorem transfer_from_eq_insufficient_allowance (s : Erc20)
    (caller src dst value : Nat) (h : s.allowance src caller < value) :
    s.transfer_from caller src dst value
      = (Except.error Error.InsufficientAllowance, s, []) := by
  unfold Erc20.transfer_from
  simp [h]

theorem transfer_from_eq_insufficient_balance (s : Erc20)
    (caller src dst value : Nat) (h1 : value ≤ s.allowance src caller)
    (h2 : s.balance_of src < value) :
    s.transfer_from caller src dst value
      = (Except.error Error.InsufficientBalance, s, []) := by
  unfold Erc20.transfer_from
  simp [not_lt.mpr h1, transfer_from_to_insufficient s src dst value h2]

theorem transfer_from_eq_ok (s : Erc20) (caller src dst value : Nat)
    (h1 : value ≤ s.allowance src caller) (h2 : value ≤ s.balance_of src) :
    s.transfer_from caller src dst value =
      (Except.ok (),
       { s with
           balances := (ainsert dst
             (((if dst = src then s.balance_of src - value else s.balance_of dst) + value) % U128)
             (ainsert src (s.balance_of src - value) s.balances))
           allowances := (ainsert (src, caller) (s.allowance src caller - value) s.allowances) },
       [Event.Transfer (some src) (some dst) value]) := by
  unfold Erc20.transfer_from
  simp [not_lt.mpr h1, transfer_from_to_ok s src dst value h2]

theorem transfer_from_consistent (s : Erc20) (caller src dst value : Nat)
    (h : s.Consistent) : Erc20.Consistent (s.transfer_from caller src dst value).2.1 := by
  by_cases h1 : s.allowance src caller < value
  · rw [transfer_from_eq_insufficient_allowance s caller src dst value h1]
    exact h
  · push_neg at h1
    by_cases h2 : s.balance_of src < value
    · rw [transfer_from_eq_insufficient_balance s caller src dst value h1 h2]
      exact h
    · push_neg at h2
      rw [transfer_from_eq_ok s caller src dst value h1 h2]
      have hc := transfer_from_to_consistent s src dst value h
      rw [transfer_from_to_ok s src dst value h2] at hc
      exact hc

theorem reachable_consistent (s : Erc20) (h : Reachable s) : s.Consistent := by
  induction h with
  | init caller initial_supply name symbol decimals hlt =>
      refine ⟨?_, hlt⟩
      simp [Erc20.new, sumValues]
  | step_transfer s caller dst value h ih =>
      exact transfer_from_to_consistent s caller dst value ih
  | step_approve s caller spender value h ih =>
      exact ih
  | step_transfer_from s caller src dst value h ih =>
      exact transfer_from_consistent s caller src dst value ih

theorem getD_ainsert2 (a src dst : Nat) (v1 v2 : Nat) (bal : List (Nat × Nat)) :
    (alookup a (ainsert dst v2 (ainsert src v1 bal))).getD 0 =
      if a = dst then v2 else if a = src then v1 else (alookup a bal).getD 0 := by
  by_cases h1 : a = dst
  · subst h1
    simp [alookup_ainsert_self]
  · rw [alookup_ainsert_ne _ _ _ _ h1]
    by_cases h2 : a = src
    · subst h2
      simp [alookup_ainsert_self, h1]
    · rw [alookup_ainsert_ne _ _ _ _ h2]
      simp [h1, h2]

theorem transfer_from_to_ok_balances (s : Erc20) (src dst value : Nat)
    (h : value ≤ s.balance_of src) (a : Nat) :
    (s.transfer_from_to src dst value).2.1.balance_of a =
      if a = dst then
        ((if dst = src then s.balance_of src - value else s.balance_of dst) + value) % U128
      else if a = src then s.balance_of src - value
      else s.balance_of a := by
  rw [transfer_from_to_ok s src dst value h]
  show (alookup a (ainsert dst _ (ainsert src _ s.balances))).getD 0 = _
  rw [getD_ainsert2]
  rfl

theorem transfer_no_wrap (s : Erc20) (src dst value : Nat) (hc : s.Consistent)
    (h : value ≤ s.balance_of src) :
    (if dst = src then s.balance_of src - value else s.balance_of dst) + value < U128 := by
  obtain ⟨hsum, hts⟩ := hc
  have hfb_le : s.balance_of src ≤ sumValues s.balances :=
    alookup_le_sumValues src s.balances
  have sum1 := sumValues_ainsert src (s.balance_of src - value) s.balances
  rw [show (alookup src s.balances).getD 0 = s.balance_of src from rfl] at sum1
  by_cases hds : dst = src
  · simp only [hds, if_true]
    omega
  · have hle := alookup_le_sumValues dst (ainsert src (s.balance_of src - value) s.balances)
    rw [alookup_ainsert_ne src dst _ _ hds] at hle
    have hbd : s.balance_of dst = (alookup dst s.balances).getD 0 := rfl
    simp only [hds, if_false]
    omega

theorem transfer_from_to_total_supply (s : Erc20) (src dst value : Nat) :
    (s.transfer_from_to src dst value).2.1.total_supply = s.total_supply := by
  unfold Erc20.transfer_from_to
  by_cases h : s.balance_of src < value <;> simp [h]

theorem transfer_from_total_supply (s : Erc20) (caller src dst value : Nat) :
    (s.transfer_from caller src dst value).2.1.total_supply = s.total_supply := by
  unfold Erc20.transfer_from
  by_cases h : s.allowance src caller < value
  · simp [h]
  · simp only [h, if_false]
    have hts := transfer_from_to_total_supply s src dst value
    rcases heq : s.transfer_from_to src dst value with ⟨r, s1, evs⟩
    rw [heq] at hts
    rcases r with e | u
    · simpa using hts
    · simpa using hts

/-! ### Claim theorems -/

/-- C1: for every reachable ledger state (obtained from `new` by any finite
sequence of `transfer`, `approve` and `transfer_from` calls), the sum of
all stored balances equals the total supply. -/
theorem C1_sum_balances_eq_total_supply (s : Erc20) (h : Reachable s) :
    sumValues s.balances = s.total_supply :=
  (reachable_consistent s h).1

theorem C1_sum_balances_eq_total_supply_witness :
    sumValues (((Erc20.new 0 100 "Token Name" "TN" 18).1.transfer 0 1 10).2.1).balances
      = (((Erc20.new 0 100 "Token Name" "TN" 18).1.transfer 0 1 10).2.1).total_supply :=
  C1_sum_balances_eq_total_supply _
    (Reachable.step_transfer _ 0 1 10
      (Reachable.init 0 100 "Token Name" "TN" 18 (by decide)))

/-- C2: on a consistent ledger state (the invariant every reachable state
satisfies), `transfer caller dst value` fails with `InsufficientBalance`
and leaves the whole state unchanged (and emits nothing) when the
caller's balance is below `value`; otherwise it returns `Ok`, emits the
`Transfer` event, and (for `caller ≠ dst`) debits the caller by `value`
and credits `dst` by `value`, creating the entry if absent. -/
theorem C2_transfer_spec (s : Erc20) (caller dst value : Nat)
    (h : s.Consistent) :
    (s.balance_of caller < value →
       s.transfer caller dst value
         = (Except.error Error.InsufficientBalance, s, [])) ∧
    (value ≤ s.balance_of caller →
       (s.transfer caller dst value).1 = Except.ok () ∧
       (s.transfer caller dst value).2.2
         = [Event.Transfer (some caller) (some dst) value] ∧
       (caller ≠ dst →
          (s.transfer caller dst value).2.1.balance_of caller
            = s.balance_of caller - value ∧
          (s.transfer caller dst value).2.1.balance_of dst
            = s.balance_of dst + value)) := by
  constructor
  · intro hlt
    exact transfer_from_to_insufficient s caller dst value hlt
  · intro hge
    have hshape := transfer_from_to_ok s caller dst value hge
    refine ⟨?_, ?_, ?_⟩
    · show (s.transfer_from_to caller dst value).1 = _
      rw [hshape]
    · show (s.transfer_from_to caller dst value).2.2 = _
      rw [hshape]
    · intro hne
      have hdc : ¬ (dst = caller) := fun hh => hne hh.symm
      have hnw := transfer_no_wrap s caller dst value h hge
      rw [if_neg hdc] at hnw
      constructor
      · show (s.transfer_from_to caller dst value).2.1.balance_of caller = _
        rw [transfer_from_to_ok_balances s caller dst value hge caller]
        simp [hne]
      · show (s.transfer_from_to caller dst value).2.1.balance_of dst = _
        rw [transfer_from_to_ok_balances s caller dst value hge dst]
        simp [hdc, Nat.mod_eq_of_lt hnw]

theorem C2_transfer_spec_witness :
    Erc20.Consistent (Erc20.new 0 100 "Token Name" "TN" 18).1 ∧
    10 ≤ (Erc20.new 0 100 "Token Name" "TN" 18).1.balance_of 0 ∧
    ((Erc20.new 0 100 "Token Name" "TN" 18).1.transfer 0 1 10).2.1.balance_of 1 = 10 := by
  refine ⟨by decide, by decide, ?_⟩
  have h := C2_transfer_spec (Erc20.new 0 100 "Token Name" "TN" 18).1 0 1 10 (by decide)
  have h2 := ((h.2 (by decide)).2.2 (by decide)).2
  rw [h2]
  decide

/-- C3: on a consistent ledger state, `transfer_from caller src dst value`
fails with `InsufficientAllowance` and no state change when the
`(src, caller)` allowance is below `value`; when the allowance suffices
but `src`'s balance is below `value` it fails with `InsufficientBalance`
leaving the whole state (allowance included) unchanged; on success it
returns `Ok`, decrements the `(src, caller)` allowance by `value`, emits
the `Transfer` event, and (for `src ≠ dst`) moves `value` from `src` to
`dst`. -/
theorem C3_transfer_from_spec (s : Erc20) (caller src dst value : Nat)
    (h : s.Consistent) :
    (s.allowance src caller < value →
       s.transfer_from caller src dst value
         = (Except.error Error.InsufficientAllowance, s, [])) ∧
    (value ≤ s.allowance src caller → s.balance_of src < value →
       s.transfer_from caller src dst value
         = (Except.error Error.InsufficientBalance, s, [])) ∧
    (value ≤ s.allowance src caller → value ≤ s.balance_of src →
       (s.transfer_from caller src dst value).1 = Except.ok () ∧
       (s.transfer_from caller src dst value).2.1.allowance src caller
         = s.allowance src caller - value ∧
       (s.transfer_from caller src dst value).2.2
         = [Event.Transfer (some src) (some dst) value] ∧
       (src ≠ dst →
          (s.transfer_from caller src dst value).2.1.balance_of src
            = s.balance_of src - value ∧
          (s.transfer_from caller src dst value).2.1.balance_of dst
            = s.balance_of dst + value)) := by
  refine ⟨?_, ?_, ?_⟩
  · intro h1
    exact transfer_from_eq_insufficient_allowance s caller src dst value h1
  · intro h1 h2
    exact transfer_from_eq_insufficient_balance s caller src dst value h1 h2
  · intro h1 h2
    have hshape := transfer_from_eq_ok s caller src dst value h1 h2
    refine ⟨?_, ?_, ?_, ?_⟩
    · rw [hshape]
    · rw [hshape]
      show (alookup (src, caller)
        (ainsert (src, caller) (s.allowance src caller - value) s.allowances)).getD 0 = _
      rw [alookup_ainsert_self]
      rfl
    · rw [hshape]
    · intro hne
      have hdc : ¬ (dst = src) := fun hh => hne hh.symm
      have hnw := transfer_no_wrap s src dst value h h2
      rw [if_neg hdc] at hnw
      rw [hshape]
      constructor
      · show (alookup src (ainsert dst _ (ainsert src _ s.balances))).getD 0 = _
        rw [getD_ainsert2]
        simp [hne]
      · show (alookup dst (ainsert dst _ (ainsert src _ s.balances))).getD 0 = _
        rw [getD_ainsert2]
        simp [hdc, Nat.mod_eq_of_lt hnw]

theorem C3_transfer_from_spec_witness :
    Erc20.Consistent approvedLedger ∧
    10 ≤ approvedLedger.allowance 0 2 ∧
    10 ≤ approvedLedger.balance_of 0 ∧
    (approvedLedger.transfer_from 2 0 1 10).2.1.allowance 0 2 = 10 ∧
    (approvedLedger.transfer_from 2 0 1 10).2.1.balance_of 1 = 10 := by
  refine ⟨by decide, by decide, by decide, ?_, ?_⟩
  · have h := (C3_transfer_from_spec approvedLedger 2 0 1 10 (by decide)).2.2
      (by decide) (by decide)
    rw [h.2.1]
    decide
  · have h := (C3_transfer_from_spec approvedLedger 2 0 1 10 (by decide)).2.2
      (by decide) (by decide)
    rw [(h.2.2.2 (by decide)).2]
    decide

/-- C4 as stated is false on the code: on a state holding a recipient
balance at the `u128` maximum (each entry individually representable,
though the state is unreachable), a one-token transfer completes with
`Ok` and the recipient's balance wrapped around to `0`, because the
credit `to_balance + value` in `transfer_from_to` is an unchecked
machine addition. -/
theorem C4_counterexample :
    U128 - 1 < wrapState.balance_of 1 + 1 ∧
    (wrapState.transfer 0 1 1).1 = Except.ok () ∧
    (wrapState.transfer 0 1 1).2.1.balance_of 1 = 0 :=
  ⟨by decide, rfl, by decide⟩

/-- C4 amended: on every reachable state the hypothesis of the claim never
arises — in a successful `transfer` (its sole success condition is the
balance check), and likewise in a `transfer_from` that additionally
passes its allowance check, the post-debit recipient balance plus
`value` stays strictly below `2 ^ 128`, and the credited balance is
stored exactly, with no modulo reduction. -/
theorem C4_amended_no_wrap (s : Erc20) (caller src dst value : Nat)
    (h : Reachable s) (hbal : value ≤ s.balance_of src) :
    ((if dst = src then s.balance_of src - value else s.balance_of dst)
        + value < U128) ∧
    ((s.transfer src dst value).2.1.balance_of dst
       = (if dst = src then s.balance_of src - value else s.balance_of dst) + value) ∧
    (value ≤ s.allowance src caller →
       (s.transfer_from caller src dst value).2.1.balance_of dst
         = (if dst = src then s.balance_of src - value else s.balance_of dst) + value) := by
  have hc := reachable_consistent s h
  have hnw := transfer_no_wrap s src dst value hc hbal
  refine ⟨hnw, ?_, ?_⟩
  · show (s.transfer_from_to src dst value).2.1.balance_of dst = _
    rw [transfer_from_to_ok_balances s src dst value hbal dst]
    simp [Nat.mod_eq_of_lt hnw]
  · intro hallow
    rw [transfer_from_eq_ok s caller src dst value hallow hbal]
    show (alookup dst (ainsert dst _ (ainsert src _ s.balances))).getD 0 = _
    rw [getD_ainsert2]
    simp [Nat.mod_eq_of_lt hnw]

theorem C4_amended_no_wrap_witness :
    10 ≤ sampleLedger.balance_of 0 ∧
    (sampleLedger.transfer 0 1 10).2.1.balance_of 1
      = sampleLedger.balance_of 1 + 10 ∧
    10 ≤ approvedLedger.balance_of 0 ∧
    10 ≤ approvedLedger.allowance 0 2 ∧
    (approvedLedger.transfer_from 2 0 1 10).2.1.balance_of 1
      = approvedLedger.balance_of 1 + 10 := by
  refine ⟨by decide, ?_, by decide, by decide, ?_⟩
  · have h := C4_amended_no_wrap sampleLedger 2 0 1 10
      (Reachable.init 0 100 "Token Name" "TN" 18 (by decide))
      (by decide)
    simpa using h.2.1
  · have h := C4_amended_no_wrap approvedLedger 2 0 1 10
      (Reachable.step_approve _ 0 2 20
        (Reachable.init 0 100 "Token Name" "TN" 18 (by decide)))
      (by decide)
    simpa using h.2.2 (by decide)

/-- C5: a self-transfer with sufficient balance succeeds and leaves the
caller's balance numerically unchanged (debit then credit nets to zero);
the representability bound on the stored balance is the `u128` range of
the `Balance` type. -/
theorem C5_self_transfer (s : Erc20) (caller value : Nat)
    (hrep : s.balance_of caller < U128) (h : value ≤ s.balance_of caller) :
    (s.transfer caller caller value).1 = Except.ok () ∧
    (s.transfer caller caller value).2.1.balance_of caller
      = s.balance_of caller := by
  constructor
  · show (s.transfer_from_to caller caller value).1 = _
    rw [transfer_from_to_ok s caller caller value h]
  · show (s.transfer_from_to caller caller value).2.1.balance_of caller = _
    rw [transfer_from_to_ok_balances s caller caller value h caller]
    simp
    rw [Nat.sub_add_cancel h, Nat.mod_eq_of_lt hrep]

theorem C5_self_transfer_witness :
    sampleLedger.balance_of 0 < U128 ∧
    30 ≤ sampleLedger.balance_of 0 ∧
    (sampleLedger.transfer 0 0 30).2.1.balance_of 0 = sampleLedger.balance_of 0 :=
  ⟨by decide, by decide,
   (C5_self_transfer sampleLedger 0 30 (by decide) (by decide)).2⟩

/-- C6: `new` sets the total supply to the initial supply and credits the
whole initial supply to the constructing caller, and no exposed operation
(`transfer`, `approve`, `transfer_from`) ever changes the value of
`total_supply`, on any state whatsoever. -/
theorem C6_total_supply_frame :
    (∀ (caller initial_supply : Nat) (name symbol : String) (decimals : Nat),
       (Erc20.new caller initial_supply name symbol decimals).1.total_supply
         = initial_supply ∧
       (Erc20.new caller initial_supply name symbol decimals).1.balance_of caller
         = initial_supply) ∧
    (∀ (s : Erc20) (caller src dst spender value : Nat),
       (s.transfer caller dst value).2.1.total_supply = s.total_supply ∧
       (s.approve caller spender value).2.1.total_supply = s.total_supply ∧
       (s.transfer_from caller src dst value).2.1.total_supply = s.total_supply) := by
  constructor
  · intro caller initial_supply name symbol decimals
    exact ⟨rfl, by simp [Erc20.new, Erc20.balance_of, alookup]⟩
  · intro s caller src dst spender value
    exact ⟨transfer_from_to_total_supply s caller dst value, rfl,
           transfer_from_total_supply s caller src dst value⟩

/-- C7: `approve` always returns `Ok`, overwrites (does not add to) the
stored `(caller, spender)` allowance with `value` — so a subsequent
`allowance(caller, spender)` returns exactly `value` — and emits the
`Approval` event. -/
theorem C7_approve_spec (s : Erc20) (caller spender value : Nat) :
    (s.approve caller spender value).1 = Except.ok () ∧
    (s.approve caller spender value).2.1.allowance caller spender = value ∧
    (s.approve caller spender value).2.2
      = [Event.Approval caller spender value] := by
  refine ⟨rfl, ?_, rfl⟩
  show (alookup (caller, spender)
    (ainsert (caller, spender) value s.allowances)).getD 0 = value
  rw [alookup_ainsert_self]
  rfl

/-- C8: `approve` is idempotent on state — calling it twice with the same
owner, spender and value leaves the ledger state identical to calling it
once. -/
theorem C8_approve_idempotent (s : Erc20) (owner spender value : Nat) :
    ((s.approve owner spender value).2.1.approve owner spender value).2.1
      = (s.approve owner spender value).2.1 := by
  show ({ s with allowances :=
    (ainsert (owner, spender) value
      (ainsert (owner, spender) value s.allowances)) } : Erc20) = _
  rw [ainsert_idem]
  rfl

/-- C9: transferring zero always succeeds — for every state with
representable (`u128`) balances at the caller and recipient, and every
caller (including one with no stored balance entry), `transfer caller dst 0`
returns `Ok` and leaves every account's balance unchanged. -/
theorem C9_transfer_zero (s : Erc20) (caller dst : Nat)
    (h1 : s.balance_of caller < U128) (h2 : s.balance_of dst < U128) :
    (s.transfer caller dst 0).1 = Except.ok () ∧
    ∀ a : Nat, (s.transfer caller dst 0).2.1.balance_of a = s.balance_of a := by
  have hge : 0 ≤ s.balance_of caller := Nat.zero_le _
  constructor
  · show (s.transfer_from_to caller dst 0).1 = _
    rw [transfer_from_to_ok s caller dst 0 hge]
  · intro a
    show (s.transfer_from_to caller dst 0).2.1.balance_of a = _
    rw [transfer_from_to_ok_balances s caller dst 0 hge a]
    rcases eq_or_ne a dst with ha | ha
    · subst ha
      rcases eq_or_ne a caller with hd | hd
      · subst hd
        simp [Nat.mod_eq_of_lt h1]
      · simp [hd, Nat.mod_eq_of_lt h2]
    · rcases eq_or_ne a caller with hd | hd
      · subst hd
        simp [ha]
      · simp [ha, hd]

theorem C9_transfer_zero_witness :
    sampleLedger.balance_of 5 < U128 ∧
    sampleLedger.balance_of 1 < U128 ∧
    (sampleLedger.transfer 5 1 0).1 = Except.ok () ∧
    (sampleLedger.transfer 5 1 0).2.1.balance_of 0 = sampleLedger.balance_of 0 := by
  have h := C9_transfer_zero sampleLedger 5 1 (by decide) (by decide)
  exact ⟨by decide, by decide, h.1, h.2 0⟩

/-- C10: `Flipper.flip` is an involution — one `flip` makes `get` return
the negation of the previous value, two `flip`s restore the original
state — and `Flipper.default` equals `Flipper.new false`. -/
theorem C10_flipper_flip_involution (f : Flipper) (b : Bool) :
    (Flipper.new b).flip.get = !b ∧
    f.flip.get = !f.get ∧
    f.flip.flip = f ∧
    Flipper.default = Flipper.new false := by
  refine ⟨rfl, rfl, ?_, rfl⟩
  cases f
  simp [Flipper.flip]
